import Mathlib

/-!
Verification of the extraction-and-normalization pipeline of the
`ncr_property_price_estimation` repository.

The Python sources under `src/ncr_property_price_estimation/data/` are
shallowly embedded below: strings become `List Char`, Python floats become
`ℚ` (exact rational arithmetic), `None` becomes `Option.none`, and a raised
exception becomes `Except.error`.  Each embedded definition keeps the name
of the Python function or class it is translated from.
-/

namespace NCR

/-- Python strings are embedded as lists of characters. -/
abbrev Str := List Char

/-- Numeric value of a list of decimal digit characters (most significant first). -/
def natOfDigits (s : Str) : Nat :=
  s.foldl (fun n c => n * 10 + (c.toNat - 48)) 0

/-- Embedding of `str.lower` (ASCII case folding, which covers all inputs used here). -/
def lowerStr (s : Str) : Str := s.map Char.toLower

/-- Embedding of `str.strip`: remove leading and trailing whitespace. -/
def strip (s : Str) : Str :=
  ((s.dropWhile Char.isWhitespace).reverse.dropWhile Char.isWhitespace).reverse

/-- Embedding of Python's substring test `pat in s`. -/
def containsSub (pat : Str) : Str → Bool
  | [] => pat.isEmpty
  | c :: cs => pat.isPrefixOf (c :: cs) || containsSub pat cs

/-- Embedding of `str.split(sep)` for a one-character separator. -/
def splitOnChar (sep : Char) : Str → List Str
  | [] => [[]]
  | c :: cs =>
    let r := splitOnChar sep cs
    if c = sep then [] :: r
    else
      match r with
      | [] => [[c]]
      | t :: ts => (c :: t) :: ts

/-- First maximal run of characters satisfying `p`, as found by
`re.search` with a character-class-plus pattern; `none` when no character matches. -/
def firstRunOf (p : Char → Bool) : Str → Option Str
  | [] => none
  | c :: cs => if p c then some ((c :: cs).takeWhile p) else firstRunOf p cs

/-- Character class of the regex `[\d.]`. -/
def isNumCh (c : Char) : Bool := c.isDigit || c = '.'

/-- Embedding of Python's `float` applied to a nonempty string over `[0-9.]`:
the call succeeds exactly when the string has at most one dot and at least one
digit, and then denotes the usual decimal value. -/
def pyFloatOfRun (run : Str) : Option ℚ :=
  if run.count '.' ≤ 1 ∧ run.any Char.isDigit then
    let ipart := run.takeWhile (· ≠ '.')
    let fpart := (run.dropWhile (· ≠ '.')).drop 1
    some ((natOfDigits ipart : ℚ) + (natOfDigits fpart : ℚ) / (10 : ℚ) ^ fpart.length)
  else none

/-- Embedding of `extract_price` from `data/ingestion.py` (the identical copy
lives in `data/magicbricks_scraper.py`).  `Except.error ()` marks the path on
which the Python code raises `ValueError` out of `float`. -/
def extract_price (price_text : Str) : Except Unit (Option ℚ) :=
  if price_text = [] then .ok none
  else
    let seg :=
      if 1 < price_text.count '₹' then ((splitOnChar '₹' price_text).drop 1).headD []
      else price_text
    let t := strip ((lowerStr seg).filter (· ≠ ','))
    match firstRunOf isNumCh t with
    | none => .ok none
    | some run =>
      match pyFloatOfRun run with
      | none => .error ()
      | some value =>
        if containsSub "cr".toList t || containsSub "crore".toList t then
          .ok (some (value * 10000000))
        else if containsSub "lac".toList t || containsSub "lakh".toList t then
          .ok (some (value * 100000))
        else if containsSub "k".toList t || containsSub "thousand".toList t then
          .ok (some (value * 1000))
        else .ok (some value)

/-- Embedding of `clean_price` from `data/99acres_scraper.py`.  Its
`try`/`except` catches both the `AttributeError` of a failed `re.search` and
the `ValueError` of `float`, so the function totalises to `Option`. -/
def clean_price (price_text : Str) : Option ℚ :=
  if price_text = [] then none
  else
    let clean := strip ((lowerStr price_text).filter (· ≠ '₹'))
    if containsSub "cr".toList clean then
      match firstRunOf isNumCh clean with
      | none => none
      | some run => (pyFloatOfRun run).map (· * 10000000)
    else if containsSub "lac".toList clean then
      match firstRunOf isNumCh clean with
      | none => none
      | some run => (pyFloatOfRun run).map (· * 100000)
    else
      match firstRunOf (fun c => c.isDigit || c = ',') clean with
      | none => none
      | some run =>
        let ds := run.filter (· ≠ ',')
        if ds = [] then none else some (natOfDigits ds)

/-- Embedding of `extract_area` from `data/ingestion.py`. -/
def extract_area (area_text : Str) : Except Unit (Option ℚ) :=
  if area_text = [] then .ok none
  else
    let t := strip ((lowerStr area_text).filter (· ≠ ','))
    match firstRunOf isNumCh t with
    | none => .ok none
    | some run =>
      match pyFloatOfRun run with
      | none => .error ()
      | some value =>
        if containsSub "sq.m".toList t || containsSub "sqm".toList t then
          .ok (some (value * (10764 / 1000)))
        else .ok (some value)

/-- Magnitude factor of the cleaned price text, following the if/elif cascade
of `extract_price` with the substrings it actually tests for ("cr"/"crore",
then "lac"/"lakh", then "k"/"thousand"; a bare "l" is not among them). -/
def magnitudeFactor (t : Str) : ℚ :=
  if containsSub "cr".toList t || containsSub "crore".toList t then 10000000
  else if containsSub "lac".toList t || containsSub "lakh".toList t then 100000
  else if containsSub "k".toList t || containsSub "thousand".toList t then 1000
  else 1

/-- Restatement of `extract_price` as "scale the first parsed number by the
detected magnitude factor", used to compare the code against the (amended)
specification sentence. -/
def normalizePriceAmended (price_text : Str) : Except Unit (Option ℚ) :=
  if price_text = [] then .ok none
  else
    let seg :=
      if 1 < price_text.count '₹' then ((splitOnChar '₹' price_text).drop 1).headD []
      else price_text
    let t := strip ((lowerStr seg).filter (· ≠ ','))
    match firstRunOf isNumCh t with
    | none => .ok none
    | some run =>
      match pyFloatOfRun run with
      | none => .error ()
      | some value => .ok (some (value * magnitudeFactor t))

/-- C1 counterexample: the claim asserts that a bare "l" suffix scales by
100,000, so that "85 L" yields 8,500,000.  The code tests only for the
substrings "lac"/"lakh" (and `clean_price` only for "cr"/"lac"), hence
"85 L" parses to 85, not 8,500,000. -/
theorem c1_bare_l_counterexample :
    extract_price "85 L".toList = .ok (some 85) ∧
    clean_price "85 L".toList = some 85 ∧
    (85 : ℚ) ≠ 8500000 := by
  refine ⟨?_, ?_, by norm_num⟩ <;>
    simp +decide [extract_price, clean_price, strip, lowerStr, firstRunOf, pyFloatOfRun,
      natOfDigits, containsSub, splitOnChar]

/-- C1 (amended): `extract_price` scales the first parsed number by the
magnitude detected as a case-insensitive substring of the cleaned text:
"cr"/"crore" → ×10,000,000, else "lac"/"lakh" → ×100,000, else
"k"/"thousand" → ×1,000, otherwise the number is returned verbatim; a bare
"l" is not a recognised magnitude marker.  In particular "₹ 1.25 Cr" yields
12,500,000, "₹ 50 Lac" yields 5,000,000, and "85 L" yields 85. -/
theorem c1_magnitude_scaling :
    (∀ s : Str, extract_price s = normalizePriceAmended s) ∧
    extract_price "₹ 1.25 Cr".toList = .ok (some 12500000) ∧
    extract_price "₹ 50 Lac".toList = .ok (some 5000000) ∧
    extract_price "85 L".toList = .ok (some 85) := by
  refine ⟨fun s => ?_, ?_, ?_, ?_⟩
  · by_cases h0 : s = []
    · simp [extract_price, normalizePriceAmended, h0]
    · simp only [extract_price, normalizePriceAmended, magnitudeFactor, if_neg h0]
      cases hr : firstRunOf isNumCh
          (strip ((lowerStr (if 1 < s.count '₹'
            then ((splitOnChar '₹' s).drop 1).headD [] else s)).filter (· ≠ ','))) with
      | none => simp [hr]
      | some run =>
        cases hf : pyFloatOfRun run with
        | none => simp [hr, hf]
        | some v => simp only [hr, hf]; split_ifs <;> simp
  all_goals
    simp +decide [extract_price, strip, lowerStr, firstRunOf, pyFloatOfRun,
      natOfDigits, containsSub, splitOnChar]
  · norm_num
  · norm_num

/-- C6: on a digit-free input, `clean_price` indeed returns `None` without
raising, and `extract_price` returns `None` on the empty string and on
"Price on Request"; but on the digit-free input "." the regex `[\d.]+`
matches the dot and `float('.')` raises an uncaught `ValueError`, so
`extract_price` raises instead of returning `None`. -/
theorem c6_no_digit_behavior :
    extract_price ".".toList = .error () ∧
    extract_price [] = .ok none ∧
    extract_price "Price on Request".toList = .ok none ∧
    clean_price ".".toList = none ∧
    clean_price "Price on Request".toList = none := by
  refine ⟨?_, ?_, ?_, ?_, ?_⟩ <;>
    simp +decide [extract_price, clean_price, strip, lowerStr, firstRunOf, pyFloatOfRun,
      natOfDigits, containsSub, splitOnChar]

/-! Embedding of `data/preprocess.py`: `parse_location`, `extract_sector_from_url`
and `recover_area_and_rate`. -/

/-- Embedding of Python's `round(q, 0)`: round half to even. -/
def pyRound0 (q : ℚ) : ℚ :=
  let f : ℤ := q.floor
  let r : ℚ := q - (f : ℚ)
  if r < 1 / 2 then (f : ℚ)
  else if 1 / 2 < r then ((f + 1 : ℤ) : ℚ)
  else if f % 2 = 0 then (f : ℚ) else ((f + 1 : ℤ) : ℚ)

/-- Leftmost match of the regex `₹(\d+)\s*per sqft` over the raw price text,
returning the digit group, as in `recover_area_and_rate`. -/
def findRate : Str → Option Nat
  | [] => none
  | c :: cs =>
    if c = '₹' then
      let ds := cs.takeWhile Char.isDigit
      if !ds.isEmpty &&
          "per sqft".toList.isPrefixOf ((cs.drop ds.length).dropWhile Char.isWhitespace) then
        some (natOfDigits ds)
      else findRate cs
    else findRate cs

/-- Test that the next `n` characters are digits (regex `\d{n}` at this position). -/
def digitsPrefix (s : Str) (n : Nat) : Bool :=
  (s.take n).length == n && (s.take n).all Char.isDigit

/-- Test for the regex tail `\s*Sq\s*-?\s*ft` (case-insensitive) at the start of `s`. -/
def sqFtAfter (s : Str) : Bool :=
  let a := s.dropWhile Char.isWhitespace
  if lowerStr (a.take 2) == "sq".toList then
    let b := (a.drop 2).dropWhile Char.isWhitespace
    let c :=
      match b with
      | '-' :: tl => tl.dropWhile Char.isWhitespace
      | _ => b
    lowerStr (c.take 2) == "ft".toList
  else false

/-- Match of `(\d{3,5})\s*Sq\s*-?\s*ft` at one position: the greedy `{3,5}`
quantifier tries five digits first, then four, then three. -/
def titleAreaAt (s : Str) : Option Nat :=
  if digitsPrefix s 5 && sqFtAfter (s.drop 5) then some (natOfDigits (s.take 5))
  else if digitsPrefix s 4 && sqFtAfter (s.drop 4) then some (natOfDigits (s.take 4))
  else if digitsPrefix s 3 && sqFtAfter (s.drop 3) then some (natOfDigits (s.take 3))
  else none

/-- Leftmost match of `(\d{3,5})\s*Sq\s*-?\s*ft` over the title (case-insensitive). -/
def titleAreaScan : Str → Option Nat
  | [] => none
  | c :: cs =>
    match titleAreaAt (c :: cs) with
    | some n => some n
    | none => titleAreaScan cs

/-- Python truth test `pd.isna(area) or area < 100` on an optional number. -/
def isNaOrLt100 : Option ℚ → Bool
  | none => true
  | some a => decide (a < 100)

/-- Python truth test `pd.isna(area) or area == 0` on an optional number. -/
def isNaOrZero : Option ℚ → Bool
  | none => true
  | some a => decide (a = 0)

/-- Python truth test `rate and rate > 0` on an optional number. -/
def isPosRate : Option ℚ → Bool
  | none => false
  | some r => decide (0 < r)

/-- Recovery strategy 3 of `recover_area_and_rate` (lines 186-189 of
`preprocess.py`): when both values are present, a rate above 100,000 with an
area below 500 is taken to be square-yard data, so the area is multiplied by 9
and the rate divided by 9.  Returns the `(rate, area)` pair. -/
def fixSquareYard (rate area : Option ℚ) : Option ℚ × Option ℚ :=
  match rate, area with
  | some r, some a =>
    if 100000 < r ∧ a < 500 then (some (r / 9), some (a * 9)) else (some r, some a)
  | r, a => (r, a)

/-- Embedding of `recover_area_and_rate` from `data/preprocess.py`; returns the
`(price_per_sqft, area)` pair of the produced series. -/
def recover_area_and_rate (price : Option ℚ) (title price_raw : Str) (area : Option ℚ) :
    Option ℚ × Option ℚ :=
  let rate : Option ℚ := (findRate price_raw).map (fun n => (n : ℚ))
  let area1 : Option ℚ :=
    if isNaOrLt100 area then
      match titleAreaScan title with
      | some n => some (n : ℚ)
      | none => area
    else area
  let area2 : Option ℚ :=
    if isNaOrZero area1 && price.isSome && isPosRate rate then
      match price, rate with
      | some p, some r => some (pyRound0 (p / r))
      | _, _ => area1
    else area1
  fixSquareYard rate area2

/-- Consume at most one character satisfying `p` (regex `X?`), returning how
many characters were consumed together with the remaining text. -/
def eatOpt (p : Char → Bool) : Str → Nat × Str
  | [] => (0, [])
  | c :: cs => if p c then (1, cs) else (0, c :: cs)

/-- Match of `kw\s?[-]?\s?(\d+[A-Z]?)` (case-insensitive) at the start of `s`:
returns the total matched length and the content of group 1. -/
def sectorAt (kw : Str) (s : Str) : Option (Nat × Str) :=
  let pre := s.take kw.length
  if pre.length == kw.length && lowerStr pre == kw then
    let r0 := s.drop kw.length
    let (a, r1) := eatOpt Char.isWhitespace r0
    let (b, r2) := eatOpt (· == '-') r1
    let (c, r3) := eatOpt Char.isWhitespace r2
    let ds := r3.takeWhile Char.isDigit
    if ds.isEmpty then none
    else
      let r4 := r3.drop ds.length
      let d := (eatOpt Char.isAlpha r4).1
      some (kw.length + a + b + c + ds.length + d, ds ++ r4.take d)
  else none

/-- Leftmost match of a sector pattern: returns start position, matched length
and group 1. -/
def sectorScanFrom (kw : Str) : Nat → Str → Option (Nat × Nat × Str)
  | _, [] => none
  | i, c :: cs =>
    match sectorAt kw (c :: cs) with
    | some (n, g1) => some (i, n, g1)
    | none => sectorScanFrom kw (i + 1) cs

/-- The `SECTOR_PATTERNS` loop of `parse_location`: the `Sector` pattern is
tried over the whole text first, then the `Sec` pattern. -/
def firstSectorMatch (address : Str) : Option (Nat × Nat × Str) :=
  match sectorScanFrom "sector".toList 0 address with
  | some m => some m
  | none => sectorScanFrom "sec".toList 0 address

/-- Embedding of `address_text.split(match.group(0))[0]`: the part of the text
before the first occurrence of `pat`. -/
def beforeSub (pat : Str) : Str → Str
  | [] => []
  | c :: cs => if pat.isPrefixOf (c :: cs) then [] else c :: beforeSub pat cs

/-- Match of `Sector-(\d+[A-Z]?)-in-` (case-insensitive) at the start of `s`,
returning group 1. -/
def sectorUrlAt (s : Str) : Option Str :=
  if (s.take 7).length == 7 && lowerStr (s.take 7) == "sector-".toList then
    let r := s.drop 7
    let ds := r.takeWhile Char.isDigit
    if ds.isEmpty then none
    else
      let r2 := r.drop ds.length
      let d := (eatOpt Char.isAlpha r2).1
      let r3 := r2.drop d
      if (r3.take 4).length == 4 && lowerStr (r3.take 4) == "-in-".toList then
        some (ds ++ r2.take d)
      else none
  else none

/-- Leftmost match of `Sector-(\d+[A-Z]?)-in-` over the URL. -/
def sectorUrlScan : Str → Option Str
  | [] => none
  | c :: cs =>
    match sectorUrlAt (c :: cs) with
    | some g => some g
    | none => sectorUrlScan cs

/-- Embedding of `extract_sector_from_url` from `data/preprocess.py`. -/
def extract_sector_from_url (url : Str) : Option Str :=
  (sectorUrlScan url).map (fun g => "Sector ".toList ++ g)

/-- Token of a `KNOWN_AREAS` regex: a literal word or a digit group, with
`\s+` between consecutive tokens. -/
inductive PTok
  | lit (w : Str)
  | num

/-- Match one `KNOWN_AREAS` token at the start of `s`, returning the matched
length. -/
def matchPTok : PTok → Str → Option Nat
  | .lit w, s =>
    if (s.take w.length).length == w.length && lowerStr (s.take w.length) == w then
      some w.length
    else none
  | .num, s =>
    let ds := s.takeWhile Char.isDigit
    if ds.isEmpty then none else some ds.length

/-- Match a `\s+`-separated token sequence at the start of `s`, returning the
matched length. -/
def matchPToks : List PTok → Str → Option Nat
  | [], _ => some 0
  | [t], s => matchPTok t s
  | t :: ts, s =>
    match matchPTok t s with
    | none => none
    | some n =>
      let rest := s.drop n
      let w := (rest.takeWhile Char.isWhitespace).length
      if w == 0 then none
      else
        match matchPToks ts (rest.drop w) with
        | none => none
        | some m => some (n + w + m)

/-- The `KNOWN_AREAS` patterns of `data/preprocess.py`, in source order. -/
def knownAreaPatterns : List (List PTok) :=
  [[.lit "dlf".toList, .lit "phase".toList, .num],
   [.lit "golf".toList, .lit "course".toList, .lit "road".toList],
   [.lit "noida".toList, .lit "extension".toList],
   [.lit "greater".toList, .lit "noida".toList, .lit "west".toList],
   [.lit "sohna".toList, .lit "road".toList],
   [.lit "mg".toList, .lit "road".toList],
   [.lit "dwarka".toList]]

/-- Leftmost match of one token-sequence pattern: start position and length. -/
def patScanFrom (toks : List PTok) : Nat → Str → Option (Nat × Nat)
  | _, [] => none
  | i, c :: cs =>
    match matchPToks toks (c :: cs) with
    | some n => some (i, n)
    | none => patScanFrom toks (i + 1) cs

/-- The `KNOWN_AREAS` loop: first pattern with a match wins. -/
def knownAreaScanList : List (List PTok) → Str → Option (Nat × Nat)
  | [], _ => none
  | p :: ps, address =>
    match patScanFrom p 0 address with
    | some m => some m
    | none => knownAreaScanList ps address

/-- Length of a `\s+in\s+` delimiter (case-insensitive) at the start of `s`,
as used by `re.split` in `parse_location`. -/
def delimLen (s : Str) : Option Nat :=
  let w1 := (s.takeWhile Char.isWhitespace).length
  if w1 == 0 then none
  else
    match s.drop w1 with
    | a :: b :: rest =>
      if a.toLower == 'i' && b.toLower == 'n' then
        let w2 := (rest.takeWhile Char.isWhitespace).length
        if w2 == 0 then none else some (w1 + 2 + w2)
      else none
    | _ => none

/-- Fueled worker for splitting on non-overlapping `\s+in\s+` delimiters. -/
def splitInF : Nat → Str → Str → List Str
  | 0, s, acc => [acc.reverse ++ s]
  | fuel + 1, s, acc =>
    match s with
    | [] => [acc.reverse]
    | c :: cs =>
      match delimLen s with
      | some n => acc.reverse :: splitInF fuel (s.drop n) []
      | none => splitInF fuel cs (c :: acc)

/-- Embedding of `re.split(r'\s+in\s+', title, flags=re.IGNORECASE)`. -/
def splitOnIn (s : Str) : List Str := splitInF s.length s []

/-- Embedding of `[t.strip() for t in text.split(',') if t.strip()]`. -/
def commaTokens (s : Str) : List Str :=
  ((splitOnChar ',' s).map strip).filter (fun t => !t.isEmpty)

/-- Embedding of `parse_location` from `data/preprocess.py`; `title = none`
models a non-string (NaN) title.  Returns `(society, sector, locality)`. -/
def parse_location (title : Option Str) (url : Option Str) : Str × Option Str × Str :=
  match title with
  | none => ("Independent/Authority".toList, none, "NCR".toList)
  | some t =>
    let parts := splitOnIn t
    let address := if 1 < parts.length then parts.getLastD [] else t
    let tokens := commaTokens address
    let locality := tokens.getLastD "NCR".toList
    match firstSectorMatch address with
    | some (st, n, g1) =>
      let sector := "Sector ".toList ++ g1
      let preToks := commaTokens (beforeSub ((address.drop st).take n) address)
      let society :=
        match preToks.getLast? with
        | some potential =>
          if 2 < potential.length && !(containsSub "Flat".toList potential) then potential
          else "Independent/Authority".toList
        | none => "Independent/Authority".toList
      (society, some sector, locality)
    | none =>
      let sector3 : Option Str :=
        match url with
        | some u => if u.isEmpty then none else extract_sector_from_url u
        | none => none
      match sector3 with
      | some sec => ("Independent/Authority".toList, some sec, locality)
      | none =>
        match knownAreaScanList knownAreaPatterns address with
        | some (st, n) =>
          let society :=
            if 3 ≤ tokens.length then tokens.headD [] else "Independent/Authority".toList
          (society, some ((address.drop st).take n), locality)
        | none =>
          if 2 ≤ tokens.length then
            let potential := (tokens.drop (tokens.length - 2)).headD []
            if 3 < potential.length && !(containsSub "Flat".toList potential) then
              let society :=
                if 3 ≤ tokens.length then tokens.headD [] else "Independent/Authority".toList
              (society, some potential, locality)
            else ("Independent/Authority".toList, none, locality)
          else ("Independent/Authority".toList, none, locality)

/-- C7: the square-yard correction of `recover_area_and_rate` multiplies the
area by 9 and divides the rate by 9 exactly when both values are present with
rate > 100,000 and area < 500, and passes both through unchanged otherwise.
On the spec's instance (price 14,400,000; rate 120,000/sqft in the raw price
text; area 120) the result is area 1080 and rate 120,000/9 = 40,000/3,
which prints as 13,333.33 at two decimals. -/
theorem c7_square_yard_correction :
    (∀ r a : ℚ, 100000 < r → a < 500 →
      fixSquareYard (some r) (some a) = (some (r / 9), some (a * 9))) ∧
    (∀ r a : ℚ, ¬(100000 < r ∧ a < 500) →
      fixSquareYard (some r) (some a) = (some r, some a)) ∧
    (∀ o : Option ℚ, fixSquareYard none o = (none, o) ∧ fixSquareYard o none = (o, none)) ∧
    recover_area_and_rate (some 14400000) [] "₹120000 per sqft".toList (some 120)
      = (some (120000 / 9), some 1080) ∧
    (120000 : ℚ) / 9 = 40000 / 3 := by
  refine ⟨fun r a h1 h2 => ?_, fun r a h => ?_, fun o => ⟨?_, ?_⟩, ?_, by norm_num⟩
  · simp [fixSquareYard, h1, h2]
  · simp [fixSquareYard, h]
  · simp [fixSquareYard]
  · cases o <;> simp [fixSquareYard]
  · simp +decide [recover_area_and_rate, findRate, natOfDigits, isNaOrLt100, isNaOrZero,
      isPosRate, titleAreaScan, titleAreaAt, digitsPrefix, sqFtAfter, lowerStr, fixSquareYard]
    norm_num

/-- Witness for C7 at the spec's concrete numbers. -/
theorem c7_square_yard_correction_witness :
    (100000 : ℚ) < 120000 ∧ (120 : ℚ) < 500 ∧
      fixSquareYard (some 120000) (some 120) = (some ((120000 : ℚ) / 9), some (120 * 9)) :=
  ⟨by norm_num, by norm_num,
    c7_square_yard_correction.1 120000 120 (by norm_num) (by norm_num)⟩

/-- C8: on the title "3 BHK Flat for Sale in Godrej Woods, Sector 43, Noida"
`parse_location` isolates the address after the first " in ", matches the
sector pattern at "Sector 43", takes the comma token before the match
("Godrej Woods", longer than 2 characters and free of "Flat") as the society,
and the last comma token ("Noida") as the locality. -/
theorem c8_parse_location_godrej_woods :
    parse_location (some "3 BHK Flat for Sale in Godrej Woods, Sector 43, Noida".toList) none
      = ("Godrej Woods".toList, some "Sector 43".toList, "Noida".toList) := by
  decide

/-! Embedding of the resume logic of `MagicBricksScraper.run` (`data/ingestion.py`,
with the same loop in `data/magicbricks_scraper.py`). -/

/-- Python truthiness of the optional `resume_city` string (`None` and the
empty string are falsy). -/
def pyTruthy : Option String → Bool
  | none => false
  | some s => !(s == "")

/-- Embedding of the city loop of `MagicBricksScraper.run`: for each city in
order, skip it when it is in `finished_cities`; skip it when a truthy
`resume_city` is set and differs from it; otherwise scrape it starting from
`resume_page` when it is the resume city and from page 1 otherwise, clearing
the resume information.  Returns the list of `(city, start_page)` scrapes in
order. -/
def runPlan : List String → List String → Option String → Nat → List (String × Nat)
  | [], _, _, _ => []
  | city :: rest, finished, resumeCity, resumePage =>
    if city ∈ finished then runPlan rest finished resumeCity resumePage
    else if pyTruthy resumeCity = true ∧ resumeCity ≠ some city then
      runPlan rest finished resumeCity resumePage
    else
      (city, if resumeCity = some city then resumePage else 1) ::
        runPlan rest finished none 1

/-- The city iteration order of `MagicBricksScraper.run` (Python dict order). -/
def mbCities : List String :=
  ["Noida", "Gurgaon", "Greater Noida", "Ghaziabad", "Faridabad", "New Delhi",
   "Delhi", "Bhiwadi", "Meerut", "Panipat", "Sonipat"]

/-- Helper for C3: once the resume information is cleared, the remaining
cities are scraped from page 1, skipping the finished ones. -/
theorem runPlan_cleared (finished : List String) :
    ∀ post : List String,
      runPlan post finished none 1
        = (post.filter (fun c => decide (c ∉ finished))).map (fun c => (c, 1)) := by
  intro post
  induction post with
  | nil => simp [runPlan]
  | cons c rest ih =>
    by_cases h : c ∈ finished
    · simp [runPlan, h, ih]
    · simp [runPlan, h, ih, pyTruthy]

/-- Helper for C3: when the resume city is truthy, not finished, and first
reached after `pre`, the loop skips all of `pre`, starts the resume city at
the resume page, and then takes the remaining non-finished cities from
page 1. -/
theorem runPlan_resume (finished : List String) (rc : String) (rp : Nat) (post : List String) :
    ∀ pre : List String, rc ∉ pre → rc ∉ finished → rc ≠ "" →
      runPlan (pre ++ rc :: post) finished (some rc) rp
        = (rc, rp) :: (post.filter (fun c => decide (c ∉ finished))).map (fun c => (c, 1)) := by
  intro pre
  induction pre with
  | nil =>
    intro _ hrcf hrc
    simp only [List.nil_append, runPlan]
    rw [if_neg hrcf]
    have hguard : ¬(pyTruthy (some rc) = true ∧ some rc ≠ some rc) := by simp
    rw [if_neg hguard]
    simp [runPlan_cleared]
  | cons c pre2 ih =>
    intro hpre hrcf hrc
    have hcne : rc ≠ c := fun h => hpre (h ▸ List.mem_cons_self c pre2)
    have ihx := ih (fun hx => hpre (List.mem_cons_of_mem _ hx)) hrcf hrc
    simp only [List.cons_append, runPlan]
    by_cases h : c ∈ finished
    · rw [if_pos h]
      exact ihx
    · rw [if_neg h]
      have hguard : pyTruthy (some rc) = true ∧ some rc ≠ some c := by
        refine ⟨by simp [pyTruthy, hrc], by simpa using hcne⟩
      rw [if_pos hguard]
      exact ihx

/-- C3 counterexample: `run()` saves the checkpoint `{current_city: city,
current_page: 1, finished_cities: [..., city]}` right after finishing a city,
so the checkpoint `{current_city: "Noida", current_page: 1, finished_cities:
["Noida"]}` is reachable.  Reloading it, Noida is skipped as finished, the
resume marker is never cleared, and every other city — none of them finished,
Gurgaon among them — is skipped as "waiting to reach Noida": the plan is
empty, contradicting the claim that every other not-yet-reached city is
processed from page 1 once reached. -/
theorem c3_finished_current_city_counterexample :
    runPlan mbCities ["Noida"] (some "Noida") 1 = [] ∧
    "Gurgaon" ∉ (["Noida"] : List String) ∧
    ("Gurgaon", 1) ∉ runPlan mbCities ["Noida"] (some "Noida") 1 := by
  decide

/-- C3 (amended): the run loop never scrapes a city recorded in
`finished_cities`; whenever the checkpoint's `current_city` is truthy, not
itself in `finished_cities`, and appears in the city list after a (skipped)
prefix it does not belong to, it is started at `current_page` and the cities
after it are processed from page 1 in order, skipping the finished ones.  In
particular the checkpoint `{current_city: "Noida", current_page: 14,
finished_cities: ["Gurgaon"]}` starts Noida at page 14, skips Gurgaon
entirely, and takes every remaining city from page 1.  When `current_city` is
itself in `finished_cities` — the state `run()` saves after finishing a
city — the resume marker is never cleared and the loop scrapes nothing. -/
theorem c3_resume_plan_amended :
    (∀ (cities finished : List String) (rc : Option String) (rp : Nat) (c : String) (p : Nat),
      c ∈ finished → (c, p) ∉ runPlan cities finished rc rp) ∧
    (∀ (pre post finished : List String) (rc : String) (rp : Nat),
      rc ∉ pre → rc ∉ finished → rc ≠ "" →
      runPlan (pre ++ rc :: post) finished (some rc) rp
        = (rc, rp) :: (post.filter (fun c => decide (c ∉ finished))).map (fun c => (c, 1))) ∧
    runPlan mbCities ["Gurgaon"] (some "Noida") 14 =
      [("Noida", 14), ("Greater Noida", 1), ("Ghaziabad", 1), ("Faridabad", 1),
       ("New Delhi", 1), ("Delhi", 1), ("Bhiwadi", 1), ("Meerut", 1),
       ("Panipat", 1), ("Sonipat", 1)] ∧
    (∀ (cities finished : List String) (rc : String) (rp : Nat),
      rc ∈ finished → (∀ c ∈ cities, c ∈ finished ∨ c ≠ rc) → rc ≠ "" →
      runPlan cities finished (some rc) rp = []) := by
  refine ⟨?_, ?_, by decide, ?_⟩
  · intro cities
    induction cities with
    | nil => intro finished rc rp c p _; simp [runPlan]
    | cons city rest ih =>
      intro finished rc rp c p hc
      by_cases h1 : city ∈ finished
      · simpa [runPlan, h1] using ih finished rc rp c p hc
      · have hne : c ≠ city := fun h => h1 (h ▸ hc)
        by_cases h2 : pyTruthy rc = true ∧ rc ≠ some city
        · simpa [runPlan, h1, h2] using ih finished rc rp c p hc
        · simp only [runPlan, if_neg h1, if_neg h2]
          intro hmem
          rcases List.mem_cons.mp hmem with h | h
          · exact hne (congrArg Prod.fst h)
          · exact ih finished none 1 c p hc h
  · intro pre post finished rc rp hpre hrcf hrc
    exact runPlan_resume finished rc rp post pre hpre hrcf hrc
  · intro cities
    induction cities with
    | nil => intro finished rc rp _ _ _; simp [runPlan]
    | cons city rest ih =>
      intro finished rc rp hrcf hall hrc
      have ihx := ih finished rc rp hrcf (fun c hx => hall c (List.mem_cons_of_mem _ hx)) hrc
      by_cases h1 : city ∈ finished
      · simpa [runPlan, h1] using ihx
      · have hne : city ≠ rc := by
          rcases hall city (List.mem_cons_self city rest) with h | h
          · exact absurd h h1
          · exact h
        have h2 : pyTruthy (some rc) = true ∧ some rc ≠ some city := by
          refine ⟨by simp [pyTruthy, hrc], by simpa using fun h => hne h.symm⟩
        simpa [runPlan, h1, h2] using ihx

/-- Witness for C3 on a concrete checkpoint whose resume city follows a
finished city in iteration order. -/
theorem c3_resume_plan_amended_witness :
    "Gurgaon" ∉ (["Noida"] : List String) ∧ ("Gurgaon" : String) ≠ "" ∧
    runPlan (["Noida"] ++ "Gurgaon" :: ["Greater Noida"]) ["Noida"] (some "Gurgaon") 7
      = [("Gurgaon", 7), ("Greater Noida", 1)] := by
  refine ⟨by decide, by decide, ?_⟩
  rw [c3_resume_plan_amended.2.1 ["Noida"] ["Greater Noida"] ["Noida"] "Gurgaon" 7
    (by decide) (by decide) (by decide)]
  decide

/-! Embedding of `CheckpointManager` (`data/ingestion.py` lines 173-221 and the
identical class in `data/99acres_scraper.py`). -/

/-- State of a `CheckpointManager`: the configured save interval and the
mutable page counter. -/
structure CheckpointManager where
  save_interval : Nat
  page_counter : Nat
  deriving DecidableEq

/-- Embedding of `CheckpointManager.should_save`: it increments the page
counter and then reports whether the new counter value is a multiple of the
save interval, returning the answer together with the mutated state. -/
def CheckpointManager.should_save (m : CheckpointManager) : Bool × CheckpointManager :=
  let m' : CheckpointManager := { m with page_counter := m.page_counter + 1 }
  (m'.page_counter % m.save_interval == 0, m')

/-- The manager state after `n` calls of `should_save` on a freshly
constructed manager (whose counter starts at 0). -/
def afterCalls (interval : Nat) : Nat → CheckpointManager
  | 0 => ⟨interval, 0⟩
  | n + 1 => ((afterCalls interval n).should_save).2

/-- Result of the `n`-th `should_save` call (1-indexed) since construction. -/
def nthShouldSave (interval n : Nat) : Bool :=
  ((afterCalls interval (n - 1)).should_save).1

/-- C10: `should_save` mutates its manager — after `n` calls the page counter
is `n` — and for a positive save interval the `n`-th call returns true exactly
when `n` is a multiple of the interval; with the default interval 10 the 10th
and 11th calls return different results. -/
theorem c10_should_save_mutates :
    (∀ interval n : Nat, (afterCalls interval n).page_counter = n) ∧
    (∀ interval n : Nat, 0 < interval → 0 < n →
      (nthShouldSave interval n = true ↔ n % interval = 0)) ∧
    nthShouldSave 10 10 = true ∧ nthShouldSave 10 11 = false := by
  have hcount : ∀ interval n : Nat, (afterCalls interval n).page_counter = n := by
    intro interval n
    induction n with
    | zero => rfl
    | succ k ih => simp [afterCalls, CheckpointManager.should_save, ih]
  have hint : ∀ interval n : Nat, (afterCalls interval n).save_interval = interval := by
    intro interval n
    induction n with
    | zero => rfl
    | succ k ih => simp [afterCalls, CheckpointManager.should_save, ih]
  refine ⟨hcount, fun interval n _ hn => ?_, by decide, by decide⟩
  have h1 : n - 1 + 1 = n := Nat.succ_pred_eq_of_pos hn
  simp [nthShouldSave, CheckpointManager.should_save, hcount, hint, h1]

/-- Witness for C10 with the default interval 10 at the 10th call. -/
theorem c10_should_save_mutates_witness :
    (0 < 10 ∧ 0 < 10) ∧ (nthShouldSave 10 10 = true ↔ 10 % 10 = 0) :=
  ⟨⟨by decide, by decide⟩, c10_should_save_mutates.2.1 10 10 (by decide) (by decide)⟩

/-! Embedding of the shutdown sequences of the two `main` entry points.  The
per-run body of actions is abstract (it is whatever executed before the
termination event — normal completion, a fatal exception, or Ctrl+C — all of
which land in the `finally` blocks), and the `finally` blocks contribute the
fixed suffixes below. -/

/-- Observable shutdown-relevant actions. -/
inductive Act
  | flush
  | ckptSave
  | summary
  | driverQuit
  deriving DecidableEq

/-- Trace of `MagicBricksScraper.run` in `data/ingestion.py`: its `finally`
block flushes the buffer and logs the summary, whatever the body did and
however it terminated (`KeyboardInterrupt` and `Exception` are caught). -/
def ingestionRunTrace (body : List Act) : List Act :=
  body ++ [Act.flush, Act.summary]

/-- Trace of `main` in `data/ingestion.py` once the scraper is constructed:
its `finally` block performs only `scraper.data_buffer.flush()`. -/
def ingestionMainTrace (body : List Act) : List Act :=
  ingestionRunTrace body ++ [Act.flush]

/-- Trace of `main` in `data/99acres_scraper.py` once the scraper is
constructed: its `finally` block flushes the buffer, saves the checkpoint,
and quits the driver. -/
def acresMainTrace (body : List Act) : List Act :=
  body ++ [Act.flush, Act.ckptSave, Act.driverQuit]

/-- C4 counterexample: on the termination path where the interrupt arrives
before any page was processed (empty body), the `ingestion.py` entry point
exits without ever executing a checkpoint save — its `finally` blocks only
flush. -/
theorem c4_ingestion_no_ckpt_counterexample :
    Act.ckptSave ∉ ingestionMainTrace [] ∧ Act.flush ∈ ingestionMainTrace [] := by
  decide

/-- C4 (amended): the `99acres_scraper.py` entry point executes a final buffer
flush and a checkpoint save on every termination path; the `ingestion.py`
entry point executes a final buffer flush on every termination path, but its
shutdown sequence contains no checkpoint save, so a checkpoint save happens
before exit only when the interrupted body already performed one. -/
theorem c4_shutdown_sequences :
    (∀ body : List Act,
      Act.flush ∈ acresMainTrace body ∧ Act.ckptSave ∈ acresMainTrace body) ∧
    (∀ body : List Act, Act.flush ∈ ingestionMainTrace body) ∧
    (∀ body : List Act,
      Act.ckptSave ∈ ingestionMainTrace body → Act.ckptSave ∈ body) := by
  refine ⟨fun body => ⟨?_, ?_⟩, fun body => ?_, fun body h => ?_⟩
  · simp [acresMainTrace]
  · simp [acresMainTrace]
  · simp [ingestionMainTrace, ingestionRunTrace]
  · simpa [ingestionMainTrace, ingestionRunTrace] using h

/-- Witness for C4 on a body that did perform a checkpoint save. -/
theorem c4_shutdown_sequences_witness :
    Act.ckptSave ∈ ingestionMainTrace [Act.ckptSave] ∧
    Act.ckptSave ∈ ([Act.ckptSave] : List Act) :=
  ⟨by decide, c4_shutdown_sequences.2.2 [Act.ckptSave] (by decide)⟩

/-! Embedding of `DataBuffer` (`data/ingestion.py` lines 227-267, identical in
`data/99acres_scraper.py`).  The CSV file is modelled as the list of write
batches appended so far, so "writes exactly once" is visible as exactly one
new batch. -/

/-- State of a `DataBuffer`: batch size, in-memory buffer, and the page
counter incremented by `add`. -/
structure DataBuffer (α : Type) where
  batch_size : Nat
  buffer : List α
  page_count : Nat
  deriving DecidableEq

/-- Embedding of `DataBuffer.add`: extend the buffer and count one page. -/
def DataBuffer.add {α : Type} (b : DataBuffer α) (listings : List α) : DataBuffer α :=
  { b with buffer := b.buffer ++ listings, page_count := b.page_count + 1 }

/-- Embedding of `DataBuffer.should_flush`: `page_count >= batch_size`. -/
def DataBuffer.should_flush {α : Type} (b : DataBuffer α) : Bool :=
  b.batch_size ≤ b.page_count

/-- Embedding of `DataBuffer.flush`: an empty buffer is a no-op (in
particular the page counter is left untouched); otherwise the whole buffer is
appended to the store as one write and the buffer and counter are cleared. -/
def DataBuffer.flush {α : Type} (b : DataBuffer α) (store : List (List α)) :
    DataBuffer α × List (List α) :=
  if b.buffer.isEmpty then (b, store)
  else ({ b with buffer := [], page_count := 0 }, store ++ [b.buffer])

/-- The add-then-conditionally-flush pattern of the per-page loop
(`scrape_city`): after each page's records are added, the buffer is flushed
exactly when `should_flush` reports true. -/
def processPages {α : Type} : List (List α) → DataBuffer α → List (List α) →
    DataBuffer α × List (List α)
  | [], b, store => (b, store)
  | pg :: rest, b, store =>
    let b1 := b.add pg
    if b1.should_flush then
      let p := b1.flush store
      processPages rest p.1 p.2
    else processPages rest b1 store

/-- Helper for C5: below the threshold no flush fires, so the store is
untouched, the buffer accumulates all records, and the counter counts the
pages. -/
theorem processPages_below {α : Type} :
    ∀ (pages : List (List α)) (b : DataBuffer α) (store : List (List α)),
      b.page_count + pages.length < b.batch_size →
      processPages pages b store =
        ({ b with buffer := b.buffer ++ pages.flatten,
                  page_count := b.page_count + pages.length }, store) := by
  intro pages
  induction pages with
  | nil => intro b store _; simp [processPages]
  | cons pg rest ih =>
    intro b store h
    have hlt : ¬ b.batch_size ≤ b.page_count + 1 := by
      simp only [List.length_cons] at h; omega
    have hsf : (b.add pg).should_flush = false := by
      simp only [DataBuffer.add, DataBuffer.should_flush]
      simpa using hlt
    have hrec := ih (b.add pg) store
      (by simp only [DataBuffer.add, List.length_cons] at h ⊢; omega)
    simp only [processPages]
    rw [hsf]
    simp only [Bool.false_eq_true, if_false]
    rw [hrec]
    have hc : (b.add pg).page_count + rest.length = b.page_count + (pg :: rest).length := by
      simp only [DataBuffer.add, List.length_cons]; omega
    simp [DataBuffer.add, List.append_assoc, hc]
    omega

/-- Helper for C5: when the page count reaches the threshold exactly at the
last page and something was accumulated, exactly one write of the whole
accumulated content happens and the buffer is cleared with the counter reset. -/
theorem processPages_at_threshold {α : Type} :
    ∀ (pages : List (List α)) (b : DataBuffer α) (store : List (List α)),
      0 < pages.length →
      b.page_count + pages.length = b.batch_size →
      b.buffer ++ pages.flatten ≠ [] →
      processPages pages b store =
        (⟨b.batch_size, [], 0⟩, store ++ [b.buffer ++ pages.flatten]) := by
  intro pages
  induction pages with
  | nil => intro b store h _ _; simp at h
  | cons pg rest ih =>
    intro b store _ hlen hne
    cases rest with
    | nil =>
      have hcnt : b.page_count + 1 = b.batch_size := by
        simpa using hlen
      have hsf : (b.add pg).should_flush = true := by
        simp only [DataBuffer.add, DataBuffer.should_flush]
        simp [hcnt]
      have hne' : ((b.add pg).buffer.isEmpty) = false := by
        simp only [DataBuffer.add]
        simpa [List.isEmpty_iff] using hne
      simp only [processPages]
      rw [hsf]
      simp only [if_true]
      rw [DataBuffer.flush]
      rw [hne']
      simp [processPages, DataBuffer.add]
    | cons pg2 rest2 =>
      have hlt : ¬ b.batch_size ≤ b.page_count + 1 := by
        simp only [List.length_cons] at hlen; omega
      have hsf : (b.add pg).should_flush = false := by
        simp only [DataBuffer.add, DataBuffer.should_flush]
        simpa using hlt
      have hrec := ih (b.add pg) store (by simp)
        (by simp only [DataBuffer.add, List.length_cons] at hlen ⊢; omega)
        (by simpa [DataBuffer.add, List.append_assoc] using hne)
      have key : processPages (pg :: pg2 :: rest2) b store
          = processPages (pg2 :: rest2) (b.add pg) store := by
        conv_lhs => rw [processPages]
        rw [hsf]
        simp
      rw [key, hrec]
      simp [DataBuffer.add, List.append_assoc]

/-- C5 counterexample: with the default batch size 10, ten `add` calls all
carrying zero records reach the threshold (`should_flush` is true and the
loop calls `flush`), yet nothing is ever written and the page counter ends at
10 rather than being reset to zero — the empty-buffer flush is a no-op that
does not reset the counter. -/
theorem c5_empty_pages_counterexample :
    (processPages (List.replicate 10 ([] : List Nat)) ⟨10, [], 0⟩ []).2 = [] ∧
    (processPages (List.replicate 10 ([] : List Nat)) ⟨10, [], 0⟩ []).1.page_count = 10 ∧
    ((processPages (List.replicate 10 ([] : List Nat)) ⟨10, [], 0⟩ []).1.should_flush) = true := by
  decide

/-- C5 (amended): starting from a fresh buffer, adding fewer pages than the
batch threshold writes nothing to the store and leaves `should_flush` false;
adding exactly the threshold number of pages with at least one record
accumulated writes the accumulated records exactly once (one appended batch
containing all of them in order), after which the buffer is empty and the
page counter is reset to zero.  If all the added pages were empty, the
threshold flush is a no-op and the counter is not reset. -/
theorem c5_buffer_flush_boundary :
    (∀ (α : Type) (pages : List (List α)) (B : Nat) (store : List (List α)),
      pages.length < B →
      (processPages pages ⟨B, [], 0⟩ store).2 = store ∧
      (processPages pages ⟨B, [], 0⟩ store).1.should_flush = false) ∧
    (∀ (α : Type) (pages : List (List α)) (B : Nat) (store : List (List α)),
      0 < B → pages.length = B → pages.flatten ≠ [] →
      processPages pages ⟨B, [], 0⟩ store = (⟨B, [], 0⟩, store ++ [pages.flatten])) := by
  constructor
  · intro α pages B store h
    have := processPages_below pages ⟨B, [], 0⟩ store (by simpa using h)
    rw [this]
    refine ⟨rfl, ?_⟩
    simp [DataBuffer.should_flush, Nat.not_le.mpr h]
  · intro α pages B store hB hlen hne
    have := processPages_at_threshold pages ⟨B, [], 0⟩ store
      (by omega) (by simpa using hlen) (by simpa using hne)
    simpa using this

/-- Witness for C5: batch size 2; one page does not write, two pages with a
record write once and clear the buffer. -/
theorem c5_buffer_flush_boundary_witness :
    (processPages [[5]] (⟨2, [], 0⟩ : DataBuffer Nat) []).2 = [] ∧
    processPages [[1], [2]] (⟨2, [], 0⟩ : DataBuffer Nat) [] = (⟨2, [], 0⟩, [[1, 2]]) := by
  constructor
  · exact (c5_buffer_flush_boundary.1 Nat [[5]] 2 [] (by decide)).1
  · have h := c5_buffer_flush_boundary.2 Nat [[1], [2]] 2 [] (by decide) (by decide) (by decide)
    simpa using h

/-! Embedding of the per-city page loops for C9.  The outcome of processing
each page (what the transport and extractor produced, or an uncaught
exception) is an input to the loop model. -/

/-- Outcome of one page iteration of `MagicBricksScraper.scrape_city`. -/
inductive PageRes
  | fetchFail
  | captcha
  | empty
  | ok (n : Nat)
  | err
  deriving DecidableEq

/-- Trace of the page numbers attempted by the `for page in range(...)` loop
of `MagicBricksScraper.scrape_city` (`data/ingestion.py`): a fetch failure or
an empty page feeds the empty-streak (limit 5), an uncaught error is caught
by the per-page handler (log, 10s backoff) after which the for-loop moves to
the next page, and a successful page resets the streak. -/
def mbCityPages (res : Nat → PageRes) : Nat → Nat → Nat → List Nat
  | 0, _, _ => []
  | fuel + 1, page, streak =>
    page ::
      match res page with
      | .err => mbCityPages res fuel (page + 1) streak
      | .fetchFail =>
        if 5 ≤ streak + 1 then [] else mbCityPages res fuel (page + 1) (streak + 1)
      | .captcha => mbCityPages res fuel (page + 1) streak
      | .empty =>
        if 5 ≤ streak + 1 then [] else mbCityPages res fuel (page + 1) (streak + 1)
      | .ok _ => mbCityPages res fuel (page + 1) 0

/-- Pages attempted by `scrape_city(city, url, start_page, max_pages)`. -/
def scrape_city_pages (res : Nat → PageRes) (startP maxP : Nat) : List Nat :=
  mbCityPages res (maxP + 1 - startP) startP 0

/-- Outcome of one page iteration of `PropertyScraper._scrape_city`
(`data/99acres_scraper.py`). -/
inductive AcrRes
  | err
  | empty
  | ok (n : Nat)
  deriving DecidableEq

/-- Loop state of `PropertyScraper._scrape_city`. -/
structure AcresState where
  page : Nat
  streak : Nat
  collected : Nat
  deriving DecidableEq

/-- One iteration of the `while` loop of `PropertyScraper._scrape_city`:
an uncaught error is logged, backed off and leaves the state unchanged (the
same page is retried); an empty page bumps the streak and either stops at the
configured limit or advances; a successful page resets the streak, counts the
records and advances.  The boolean is whether the loop continues. -/
def acresStep (limit : Nat) (s : AcresState) (r : AcrRes) : AcresState × Bool :=
  match r with
  | .err => (s, true)
  | .empty =>
    if limit ≤ s.streak + 1 then ({ s with streak := s.streak + 1 }, false)
    else ({ s with streak := s.streak + 1, page := s.page + 1 }, true)
  | .ok n => ({ page := s.page + 1, streak := 0, collected := s.collected + n }, true)

/-- C9 counterexample: in `ingestion.py`'s `scrape_city`, when page 3 of a
six-page crawl raises an uncaught per-page error, the loop logs, backs off and
then continues with page 4 — page 3 is attempted exactly once, not retried at
the same page number as the claim states. -/
theorem c9_ingestion_error_advances_counterexample :
    scrape_city_pages (fun p => if p = 3 then PageRes.err else PageRes.ok 1) 1 6
      = [1, 2, 3, 4, 5, 6] ∧
    List.count 3 (scrape_city_pages (fun p => if p = 3 then PageRes.err else PageRes.ok 1) 1 6)
      = 1 := by
  decide

/-- C9 (amended): in `99acres_scraper.py`'s `_scrape_city` an uncaught
per-page error leaves the loop state unchanged, so the loop continues at the
same page; in `ingestion.py`'s `scrape_city` the error is logged and backed
off but the `for` loop then continues at the NEXT page, so the erroring page
is attempted once and skipped.  Both are subject to the empty-streak and
page-range bounds. -/
theorem c9_error_backoff_behavior :
    (∀ (limit : Nat) (s : AcresState),
      (acresStep limit s AcrRes.err).1 = s ∧ (acresStep limit s AcrRes.err).2 = true) ∧
    (∀ (res : Nat → PageRes) (fuel page streak : Nat), res page = PageRes.err →
      mbCityPages res (fuel + 1) page streak = page :: mbCityPages res fuel (page + 1) streak) := by
  refine ⟨fun limit s => ⟨rfl, rfl⟩, fun res fuel page streak h => ?_⟩
  simp [mbCityPages, h]

/-- Witness for C9 on a loop whose every page errors. -/
theorem c9_error_backoff_behavior_witness :
    (fun _ : Nat => PageRes.err) 1 = PageRes.err ∧
    mbCityPages (fun _ : Nat => PageRes.err) 1 1 0
      = 1 :: mbCityPages (fun _ : Nat => PageRes.err) 0 2 0 :=
  ⟨rfl, c9_error_backoff_behavior.2 (fun _ => PageRes.err) 0 1 0 rfl⟩

/-! Embedding of `MagicBricksScraper.extract_listings` (`data/ingestion.py`
lines 410-553).  The BeautifulSoup selector layer is the external collaborator
of the spec: a `Card` carries, for one candidate block, the text each selector
cascade resolved to (`href` is the result of the link fallbacks, the text
fields are the `get_text` results, and `cardText` is `card.get_text()`). -/

/-- Selector-layer view of one property card. -/
structure Card where
  href : Option Str
  titleText : Str
  priceText : Str
  areaText : Str
  locationText : Str
  cardText : Str

/-- Embedding of the URL resolution: a missing link or empty `href` discards
the card (`if not link or not link.get('href'): continue`); a relative URL is
prefixed with the site origin. -/
def resolvedUrl (c : Card) : Option Str :=
  match c.href with
  | none => none
  | some h =>
    if h.isEmpty then none
    else if "http".toList.isPrefixOf h then some h
    else some ("https://www.magicbricks.com".toList ++ h)

/-- One scraped listing row, with the fields of the Python dict. -/
structure Listing where
  Title : Str
  URL : Str
  City : Str
  Price_Raw : Str
  Price : ℚ
  Area : Str
  Area_SqFt : Option ℚ
  Location : Str
  Prop_Type : Str
  Bedrooms : Nat
  Bathrooms : Nat
  Balcony : Nat
  Facing : Str
  Pooja_Room : Nat
  Servant_Room : Nat
  Store_Room : Nat
  Pool : Nat
  Gym : Nat
  Lift : Nat
  Parking : Nat
  Vastu_Compliant : Nat
  Furnished : Str
  Floor : Nat
  Source : Str

/-- Leftmost match of `(\d+)\s*kw` over the blob, returning the digit group
(used for the bhk/bath/balcony regexes). -/
def natThenKw (kw : Str) : Str → Option Nat
  | [] => none
  | c :: cs =>
    if c.isDigit then
      let ds := (c :: cs).takeWhile Char.isDigit
      let rest := (c :: cs).dropWhile Char.isDigit
      if kw.isPrefixOf (rest.dropWhile Char.isWhitespace) then some (natOfDigits ds)
      else natThenKw kw cs
    else natThenKw kw cs

/-- Leftmost match of `(\d+)(?:st|nd|rd|th)?\s*floor` over the blob. -/
def floorSearch : Str → Option Nat
  | [] => none
  | c :: cs =>
    if c.isDigit then
      let ds := (c :: cs).takeWhile Char.isDigit
      let rest := (c :: cs).dropWhile Char.isDigit
      let rest2 :=
        if "st".toList.isPrefixOf rest || "nd".toList.isPrefixOf rest ||
            "rd".toList.isPrefixOf rest || "th".toList.isPrefixOf rest then rest.drop 2
        else rest
      if "floor".toList.isPrefixOf (rest2.dropWhile Char.isWhitespace) then
        some (natOfDigits ds)
      else floorSearch cs
    else floorSearch cs

/-- Capture of the lazy group of `in\s+(.+?)(?:,|$)`: the shortest nonempty
prefix that is followed by a comma or the end of the text. -/
def lazyToComma (afterWs : Str) : Str :=
  match afterWs with
  | [] => []
  | a :: rest => a :: rest.takeWhile (· ≠ ',')

/-- Leftmost match of `in\s+(.+?)(?:,|$)` (case-insensitive) over the title,
returning group 1; when nothing follows the whitespace run, the regex
backtracks and captures the final whitespace character (if the run allows),
or fails at this position. -/
def locFromTitle : Str → Option Str
  | [] => none
  | [_] => none
  | a :: b :: rest =>
    if a.toLower == 'i' && b.toLower == 'n' &&
        !(rest.takeWhile Char.isWhitespace).isEmpty then
      let w := rest.takeWhile Char.isWhitespace
      let afterWs := rest.dropWhile Char.isWhitespace
      if !afterWs.isEmpty then some (lazyToComma afterWs)
      else if 2 ≤ w.length then some [w.getLastD ' ']
      else locFromTitle (b :: rest)
    else locFromTitle (b :: rest)

/-- Location of a card: the location selector text, with the title regex as
fallback when it is empty and a title exists. -/
def locationOf (c : Card) : Str :=
  if c.locationText.isEmpty && !c.titleText.isEmpty then
    match locFromTitle c.titleText with
    | some g => strip g
    | none => c.locationText
  else c.locationText

/-- Property-type classification by keyword presence in the blob. -/
def propTypeOf (blob : Str) : Str :=
  if containsSub "villa".toList blob || containsSub "house".toList blob then
    "Independent House".toList
  else if containsSub "plot".toList blob then "Plot".toList
  else if containsSub "builder floor".toList blob then "Builder Floor".toList
  else "Apartment".toList

/-- Furnishing classification by keyword presence in the blob. -/
def furnishedOf (blob : Str) : Str :=
  if containsSub "semi".toList blob && containsSub "furnished".toList blob then
    "Semi-Furnished".toList
  else if containsSub "fully".toList blob && containsSub "furnished".toList blob then
    "Fully-Furnished".toList
  else if containsSub "unfurnished".toList blob then "Unfurnished".toList
  else "Unknown".toList

/-- Facing classification: first direction whose "<dir> facing" phrase occurs
in the blob, in the source's order. -/
def facingOf (blob : Str) : Str :=
  if containsSub "north-east facing".toList blob then "North-East".toList
  else if containsSub "north-west facing".toList blob then "North-West".toList
  else if containsSub "south-east facing".toList blob then "South-East".toList
  else if containsSub "south-west facing".toList blob then "South-West".toList
  else if containsSub "north facing".toList blob then "North".toList
  else if containsSub "south facing".toList blob then "South".toList
  else if containsSub "east facing".toList blob then "East".toList
  else if containsSub "west facing".toList blob then "West".toList
  else "Unknown".toList

/-- Binary amenity flag (Python `1 if cond else 0`). -/
def flag (b : Bool) : Nat := if b then 1 else 0

/-- Construction of the listing dict for a card that passed the URL and price
checks. -/
def mkListing (city : Str) (c : Card) (url : Str) (price : ℚ) (area : Option ℚ) : Listing :=
  let blob := lowerStr c.cardText
  { Title := c.titleText
    URL := url
    City := city
    Price_Raw := c.priceText
    Price := price
    Area := c.areaText
    Area_SqFt := area
    Location := (if (locationOf c).isEmpty then "Unknown".toList else locationOf c)
    Prop_Type := propTypeOf blob
    Bedrooms := (natThenKw "bhk".toList blob).getD 0
    Bathrooms := (natThenKw "bath".toList blob).getD 0
    Balcony := (natThenKw "balcon".toList blob).getD 0
    Facing := facingOf blob
    Pooja_Room := flag (containsSub "pooja".toList blob || containsSub "puja".toList blob)
    Servant_Room := flag (containsSub "servant".toList blob)
    Store_Room := flag (containsSub "store".toList blob)
    Pool := flag (containsSub "pool".toList blob || containsSub "swimming".toList blob)
    Gym := flag (containsSub "gym".toList blob)
    Lift := flag (containsSub "lift".toList blob || containsSub "elevator".toList blob)
    Parking := flag (containsSub "parking".toList blob)
    Vastu_Compliant := flag (containsSub "vastu".toList blob)
    Furnished := furnishedOf blob
    Floor := (floorSearch blob).getD 0
    Source := "MagicBricks".toList }

/-- Per-card body of `extract_listings`: discard the card when no identity URL
resolves, when the URL is already in `seen_urls`, when no positive price can
be normalised (`if not price: continue`, with a price-parsing exception caught
by the per-card handler), or when the area parse raises (also caught);
otherwise yield the listing together with the URL to register. -/
def processCard (city : Str) (seen : List Str) (c : Card) : Option (Listing × Str) :=
  match resolvedUrl c with
  | none => none
  | some url =>
    if url ∈ seen then none
    else
      match extract_price c.priceText with
      | .error _ => none
      | .ok none => none
      | .ok (some p) =>
        if p = 0 then none
        else
          match extract_area c.areaText with
          | .error _ => none
          | .ok area => some (mkListing city c url p area, url)

/-- Embedding of the card loop of `extract_listings`: each yielded listing
registers its URL into `seen_urls` immediately (`listings.append(listing)`
directly followed by `self.seen_urls.add(url)`); returns the listings and the
final `seen_urls`. -/
def extract_listings (city : Str) : List Card → List Str → List Listing × List Str
  | [], seen => ([], seen)
  | c :: cards, seen =>
    match processCard city seen c with
    | none => extract_listings city cards seen
    | some pr =>
      let tail := extract_listings city cards (pr.2 :: seen)
      (pr.1 :: tail.1, tail.2)

/-- Helper for C2: extraction only ever adds to `seen_urls`. -/
theorem extract_listings_seen_subset (city : Str) :
    ∀ (cards : List Card) (seen : List Str), seen ⊆ (extract_listings city cards seen).2 := by
  intro cards
  induction cards with
  | nil => intro seen; simp [extract_listings]
  | cons c rest ih =>
    intro seen
    cases h : processCard city seen c with
    | none => simpa [extract_listings, h] using ih seen
    | some pr =>
      simp only [extract_listings, h]
      exact fun x hx => ih (pr.2 :: seen) (List.mem_cons_of_mem _ hx)

/-- Helper for C2: a card that is discarded stays discarded under a larger
`seen_urls` set — its discard reason is either deterministic in the card or a
URL membership that persists. -/
theorem processCard_none_mono {city : Str} {c : Card} {seen s' : List Str}
    (hs : seen ⊆ s') (h : processCard city seen c = none) :
    processCard city s' c = none := by
  cases hu : resolvedUrl c with
  | none => simp [processCard, hu]
  | some url =>
    simp only [processCard, hu] at h ⊢
    by_cases hmem : url ∈ s'
    · simp [hmem]
    · have hmem0 : url ∉ seen := fun hx => hmem (hs hx)
      simp only [if_neg hmem0] at h
      simpa [if_neg hmem] using h

/-- Helper for C2: a yielded card carries its resolved URL as the registered
key. -/
theorem processCard_some_url {city : Str} {seen : List Str} {c : Card} {pr : Listing × Str}
    (h : processCard city seen c = some pr) : resolvedUrl c = some pr.2 := by
  cases hu : resolvedUrl c with
  | none => simp [processCard, hu] at h
  | some u =>
    simp only [processCard, hu] at h
    by_cases hm : u ∈ seen
    · simp [hm] at h
    · simp only [if_neg hm] at h
      cases hep : extract_price c.priceText with
      | error e => simp [hep] at h
      | ok o =>
        cases o with
        | none => simp [hep] at h
        | some p =>
          simp only [hep] at h
          by_cases hp : p = 0
          · simp [hp] at h
          · simp only [if_neg hp] at h
            cases hea : extract_area c.areaText with
            | error e => simp [hea] at h
            | ok a =>
              simp only [hea] at h
              have h2 := Option.some.inj h
              rw [← h2]

/-- Helper for C2: a card whose resolved URL is already registered is
discarded as a duplicate. -/
theorem processCard_mem_none {city : Str} {c : Card} {s' : List Str} {u : Str}
    (hu : resolvedUrl c = some u) (hmem : u ∈ s') : processCard city s' c = none := by
  simp only [processCard, hu]
  simp [hmem]

/-- C2: running `extract_listings` a second time over the same cards, on the
`seen_urls` state produced by the first run, yields zero listings and leaves
`seen_urls` unchanged: every URL yielded by the first run was registered
immediately on yield, so the second run discards every card (yielded cards as
duplicates, and URL-less, price-less or unparseable cards by the same
deterministic checks as before). -/
theorem c2_second_run_yields_nothing :
    ∀ (city : Str) (cards : List Card) (seen : List Str),
      extract_listings city cards (extract_listings city cards seen).2
        = ([], (extract_listings city cards seen).2) := by
  intro city cards
  induction cards with
  | nil => intro seen; simp [extract_listings]
  | cons c rest ih =>
    intro seen
    cases h : processCard city seen c with
    | none =>
      have h2 : processCard city (extract_listings city rest seen).2 c = none :=
        processCard_none_mono (extract_listings_seen_subset city rest seen) h
      simp only [extract_listings, h, h2]
      exact ih seen
    | some pr =>
      have hmem : pr.2 ∈ (extract_listings city rest (pr.2 :: seen)).2 :=
        extract_listings_seen_subset city rest (pr.2 :: seen) (List.mem_cons_self _ _)
      have h2 : processCard city (extract_listings city rest (pr.2 :: seen)).2 c = none :=
        processCard_mem_none (processCard_some_url h) hmem
      simp only [extract_listings, h, h2]
      exact ih (pr.2 :: seen)

end NCR
